import Mathlib

/-!
Verification of the block / table formatting-context core of the layout
engine: shallow embedding of `src/components/main/layout/block.rs`,
`table_row.rs` and `table_wrapper.rs`.

Lengths (`Au`, app units) are modelled as `Int`; all layout arithmetic in the
source is integer arithmetic on `Au`.
-/

set_option autoImplicit false

namespace Layout

/-- `MaybeAuto`, from `layout::model` (only its declaration is visible from
the files under verification; the type and its helpers follow the spec's
description: `Auto | Specified(Au)`). -/
inductive MaybeAuto where
  | Auto : MaybeAuto
  | Specified : Int → MaybeAuto
deriving DecidableEq

/-- Modelled from the spec: a computed `length | percentage | auto` value from
the style system (the style crate is not under `src/`).  Percentages are exact
rationals; they are resolved against a containing length by truncating
scaling, matching integer `Au` arithmetic. -/
inductive LengthOrPercentageOrAuto where
  | lpaLength : Int → LengthOrPercentageOrAuto
  | lpaPercentage : Rat → LengthOrPercentageOrAuto
  | lpaAuto : LengthOrPercentageOrAuto
deriving DecidableEq

/-- Modelled from the spec: a computed `length | percentage | none` value
(used by `max-width`; `none` yields no clamp). -/
inductive LengthOrPercentageOrNone where
  | lpnLength : Int → LengthOrPercentageOrNone
  | lpnPercentage : Rat → LengthOrPercentageOrNone
  | lpnNone : LengthOrPercentageOrNone
deriving DecidableEq

/-- Modelled from the spec: a computed `length | percentage` value (used by
`min-width`). -/
inductive LengthOrPercentage where
  | lpLength : Int → LengthOrPercentage
  | lpPercentage : Rat → LengthOrPercentage
deriving DecidableEq

/-- Truncating conversion of a rational to an integer (rounding toward zero),
the behaviour of the source's float-to-`Au` casts. -/
def ratTrunc (q : Rat) : Int :=
  if 0 ≤ q then q.floor else q.ceil

/-- `Au::scale_by`: scale an app-unit length by a rational factor, truncating
toward zero. -/
def scaleBy (a : Int) (q : Rat) : Int :=
  ratTrunc ((a : Rat) * q)

/-- Modelled from the spec: `MaybeAuto::from_style(v, containing)` resolves a
computed length/percentage/auto against a containing length. -/
def MaybeAuto.from_style (v : LengthOrPercentageOrAuto) (containing : Int) : MaybeAuto :=
  match v with
  | .lpaLength l => .Specified l
  | .lpaPercentage p => .Specified (scaleBy containing p)
  | .lpaAuto => .Auto

/-- `MaybeAuto::specified_or_default`. -/
def MaybeAuto.specified_or_default (m : MaybeAuto) (d : Int) : Int :=
  match m with
  | .Auto => d
  | .Specified v => v

/-- `MaybeAuto::specified_or_zero`. -/
def MaybeAuto.specified_or_zero (m : MaybeAuto) : Int :=
  m.specified_or_default 0

/-- Modelled from the spec: `specified_or_none(v, containing)` resolves a
`max-width` style value; `none` resolves to `None` (no clamp). -/
def specified_or_none (v : LengthOrPercentageOrNone) (containing : Int) : Option Int :=
  match v with
  | .lpnLength l => some l
  | .lpnPercentage p => some (scaleBy containing p)
  | .lpnNone => none

/-- Modelled from the spec: `specified(v, containing)` resolves a `min-width`
style value. -/
def specified (v : LengthOrPercentage) (containing : Int) : Int :=
  match v with
  | .lpLength l => l
  | .lpPercentage p => scaleBy containing p

/-- The style fields consulted by the horizontal constraint solver
(`style.Box.width`, `style.Margin.margin_left/right`, `style.Box.max_width`,
`style.Box.min_width`). -/
structure BoxStyle where
  width : LengthOrPercentageOrAuto
  margin_left : LengthOrPercentageOrAuto
  margin_right : LengthOrPercentageOrAuto
  max_width : LengthOrPercentageOrNone
  min_width : LengthOrPercentage
deriving DecidableEq

/-- The solving match of `BlockFlow::compute_horiz` (block.rs lines
157-179), on `(left_margin, width, right_margin)` after the auto-margin
adjustment.  Returns `(left_margin_Au, width_Au, right_margin_Au)` pivoted
to the source's final tuple order `(width, left, right)` at the end. -/
def solve_horiz (left_margin width right_margin : MaybeAuto) (available_width : Int) :
    Int × Int × Int :=
  match left_margin, width, right_margin with
  | .Specified margin_l, .Specified w, .Specified _margin_r =>
      (w, margin_l, available_width - (margin_l + w))
  | .Auto, .Specified w, .Specified margin_r =>
      (w, available_width - (w + margin_r), margin_r)
  | .Specified margin_l, .Auto, .Specified margin_r =>
      (available_width - (margin_l + margin_r), margin_l, margin_r)
  | .Specified margin_l, .Specified w, .Auto =>
      (w, margin_l, available_width - (margin_l + w))
  | .Auto, .Auto, .Specified margin_r =>
      (available_width - margin_r, 0, margin_r)
  | .Specified margin_l, .Auto, .Auto =>
      (available_width - margin_l, margin_l, 0)
  | .Auto, .Auto, .Auto =>
      (available_width, 0, 0)
  | .Auto, .Specified w, .Auto =>
      -- margins split evenly: `(available_width - width).scale_by(0.5)`,
      -- an exact halving truncated toward zero.
      let margin := scaleBy (available_width - w) (1 / 2)
      (w, margin, margin)

/-- `BlockFlow::compute_horiz` (block.rs lines 134-182): the CSS 2.1 §10.3.3
horizontal constraint solver.  Returns `(width, left_margin, right_margin)`,
in the same order as the source's final tuple. -/
def compute_horiz (width left_margin right_margin : MaybeAuto) (available_width : Int) :
    Int × Int × Int :=
  -- If width is not 'auto', and width + margins > available_width, all
  -- 'auto' margins are treated as 0.
  let lr : MaybeAuto × MaybeAuto :=
    match width with
    | .Auto => (left_margin, right_margin)
    | .Specified w =>
      let left := left_margin.specified_or_zero
      let right := right_margin.specified_or_zero
      if left + right + w > available_width then (.Specified left, .Specified right)
      else (left_margin, right_margin)
  -- Invariant (source comment): left + width + right == available_width
  solve_horiz lr.1 width lr.2 available_width

/-- `BlockFlow::compute_block_margins` (block.rs lines 184-225): solve, then
apply the `max-width` clamp by re-running the solver, then the `min-width`
clamp likewise. -/
def compute_block_margins (style : BoxStyle) (remaining_width available_width : Int) :
    Int × Int × Int :=
  let width := MaybeAuto.from_style style.width remaining_width
  let maybe_margin_left := MaybeAuto.from_style style.margin_left remaining_width
  let maybe_margin_right := MaybeAuto.from_style style.margin_right remaining_width
  let r1 := compute_horiz width maybe_margin_left maybe_margin_right available_width
  let r2 :=
    match specified_or_none style.max_width remaining_width with
    | some value =>
        if value < r1.1 then
          compute_horiz (.Specified value) maybe_margin_left maybe_margin_right available_width
        else r1
    | none => r1
  let computed_min_width := specified style.min_width remaining_width
  if computed_min_width > r2.1 then
    compute_horiz (.Specified computed_min_width) maybe_margin_left maybe_margin_right
      available_width
  else r2

/-- `TableWrapperFlow::compute_table_margins` (table_wrapper.rs lines
155-196); textually identical to `compute_block_margins` (the wrapper's own
`compute_horiz` is textually identical to the block one). -/
def compute_table_margins (style : BoxStyle) (remaining_width available_width : Int) :
    Int × Int × Int :=
  let width := MaybeAuto.from_style style.width remaining_width
  let maybe_margin_left := MaybeAuto.from_style style.margin_left remaining_width
  let maybe_margin_right := MaybeAuto.from_style style.margin_right remaining_width
  let r1 := compute_horiz width maybe_margin_left maybe_margin_right available_width
  let r2 :=
    match specified_or_none style.max_width remaining_width with
    | some value =>
        if value < r1.1 then
          compute_horiz (.Specified value) maybe_margin_left maybe_margin_right available_width
        else r1
    | none => r1
  let computed_min_width := specified style.min_width remaining_width
  if computed_min_width > r2.1 then
    compute_horiz (.Specified computed_min_width) maybe_margin_left maybe_margin_right
      available_width
  else r2

/-- `BlockFlow::compute_float_margins` (block.rs lines 227-239): Auto margins
resolve to 0, width defaults to the shrink-to-fit width
`min(pref_width, max(min_width, remaining_width))`. -/
def compute_float_margins (style : BoxStyle) (min_width pref_width remaining_width : Int) :
    Int × Int × Int :=
  let margin_left := (MaybeAuto.from_style style.margin_left remaining_width).specified_or_zero
  let margin_right := (MaybeAuto.from_style style.margin_right remaining_width).specified_or_zero
  let shrink_to_fit := min pref_width (max min_width remaining_width)
  let width := (MaybeAuto.from_style style.width remaining_width).specified_or_default shrink_to_fit
  (width, margin_left, margin_right)

/-! ## bubble_widths -/

/-- The data a parent's `bubble_widths` reads from an already-bubbled child:
`base.min_width`, `base.pref_width`, `base.num_floats`. -/
structure ChildWidths where
  min_width : Int
  pref_width : Int
  num_floats : Nat
deriving DecidableEq

/-- One iteration of the child loop of `BlockFlow::bubble_widths`. -/
def blockBubbleStep (acc : Int × Int × Nat) (c : ChildWidths) : Int × Int × Nat :=
  (max acc.1 c.min_width, max acc.2.1 c.pref_width, acc.2.2 + c.num_floats)

/-- `BlockFlow::bubble_widths` (block.rs lines 764-801): take the max of the
children's min/pref widths and the sum of their float counts, then add the
box's intrinsic `(minimum, preferred)` widths.  `box_widths` is
`Box::minimum_and_preferred_widths()` when a box is present. -/
def BlockFlow.bubble_widths (children : List ChildWidths) (is_float : Bool)
    (box_widths : Option (Int × Int)) : Int × Int × Nat :=
  let acc := children.foldl blockBubbleStep (0, 0, 0)
  let num_floats := if is_float then 1 else acc.2.2
  match box_widths with
  | none => (acc.1, acc.2.1, num_floats)
  | some bw => (acc.1 + bw.1, acc.2.1 + bw.2, num_floats)

/-- The data `TableRowFlow::bubble_widths` reads from a cell child: the cell
box's computed style width (absent when the cell has no box), and the cell's
bubbled min/pref widths and float count. -/
structure CellWidths where
  box_ : Option LengthOrPercentageOrAuto
  min_width : Int
  pref_width : Int
  num_floats : Nat
deriving DecidableEq

/-- One iteration of the cell loop of `TableRowFlow::bubble_widths`. -/
def rowBubbleStep (acc : List Int × List Int × List Int × Int × Int × Nat) (c : CellWidths) :
    List Int × List Int × List Int × Int × Int × Nat :=
  let colW := match c.box_ with
    | some w => acc.1 ++ [(MaybeAuto.from_style w 0).specified_or_zero]
    | none => acc.1
  (colW, acc.2.1 ++ [c.min_width], acc.2.2.1 ++ [c.pref_width],
   acc.2.2.2.1 + c.min_width, acc.2.2.2.2.1 + c.pref_width,
   acc.2.2.2.2.2 + c.num_floats)

/-- `TableRowFlow::bubble_widths` (table_row.rs lines 414-447): push each
cell's Specified-or-zero style width into `col_widths` and its min/pref
widths into the column vectors; the row's min width is the sum of the cells'
min widths and its pref width is `max(min_width, sum of pref widths)`.
Returns `(col_widths, col_min_widths, col_pref_widths, min_width,
pref_width, num_floats)`. -/
def TableRowFlow.bubble_widths (cells : List CellWidths) (is_float : Bool) :
    List Int × List Int × List Int × Int × Int × Nat :=
  let acc := cells.foldl rowBubbleStep ([], [], [], 0, 0, 0)
  let num_floats := if is_float then 1 else acc.2.2.2.2.2
  (acc.1, acc.2.1, acc.2.2.1, acc.2.2.2.1, max acc.2.2.2.1 acc.2.2.2.2.1, num_floats)

/-- A child of a `TableWrapperFlow` as seen by its `bubble_widths`: a
colgroup contributes its `min_widths` to the wrapper's `col_widths`, the
inner table contributes its per-column widths (fixed layout) and its cell
count, and any other child contributes min/pref widths in the usual max
way. -/
inductive WrapperChild where
  | colgroup : List Int → WrapperChild
  | table : List Int → Nat → WrapperChild
  | other : ChildWidths → WrapperChild
deriving DecidableEq

/-- The fixed-layout merge in `TableWrapperFlow::bubble_widths`: walk the
wrapper's `col_widths` alongside the table's, filling in still-zero entries;
stop when the table's iterator runs out. -/
def mergeFixedColWidths : List Int → List Int → List Int
  | [], _ => []
  | ws, [] => ws
  | w :: ws, c :: cs => (if w = 0 then c else w) :: mergeFixedColWidths ws cs

/-- One iteration of the child loop of `TableWrapperFlow::bubble_widths`. -/
def wrapperBubbleStep (is_fixed_layout : Bool) (acc : List Int × Int × Int)
    (ch : WrapperChild) : List Int × Int × Int :=
  match ch with
  | .colgroup min_widths => (acc.1 ++ min_widths, acc.2.1, acc.2.2)
  | .table table_col_widths num_child_cells =>
      let cw := if is_fixed_layout then mergeFixedColWidths acc.1 table_col_widths else acc.1
      let diff := num_child_cells - cw.length
      (cw ++ List.replicate diff 0, acc.2.1, acc.2.2)
  | .other c => (acc.1, max acc.2.1 c.min_width, max acc.2.2 c.pref_width)

/-- `TableWrapperFlow::bubble_widths` (table_wrapper.rs lines 516-576):
colgroup children donate column widths; a table child merges its column
widths when the layout is fixed and pads `col_widths` with zeros up to its
cell count (never trimming); other children contribute min/pref widths; the
box's intrinsic widths are added at the end.  Returns
`(col_widths, min_width, pref_width)`. -/
def TableWrapperFlow.bubble_widths (children : List WrapperChild) (is_fixed_layout : Bool)
    (box_widths : Option (Int × Int)) : List Int × Int × Int :=
  let acc := children.foldl (wrapperBubbleStep is_fixed_layout) ([], 0, 0)
  match box_widths with
  | none => (acc.1, acc.2.1, acc.2.2)
  | some bw => (acc.1, acc.2.1 + bw.1, acc.2.2 + bw.2)

/-! ## TableWrapperFlow::assign_widths column distribution -/

/-- The counting loop of `TableWrapperFlow::assign_widths` (table_wrapper.rs
lines 643-651): count the zero (flex) columns and sum the non-zero (fixed)
ones. -/
def countZeroAndFixedSum (col_widths : List Int) : Int × Int :=
  col_widths.foldl
    (fun (acc : Int × Int) w => if w = 0 then (acc.1 + 1, acc.2) else (acc.1, acc.2 + w))
    (0, 0)

/-- `default_cell_width` in `TableWrapperFlow::assign_widths` (table_wrapper.rs
lines 652-656): `(remaining_width - fix_cell_width) / no_width_cnt` with
truncating integer division, guarded to 0 when there is no flex column. -/
def default_cell_width (col_widths : List Int) (remaining_width : Int) : Int :=
  let counts := countZeroAndFixedSum col_widths
  if counts.1 > 0 then Int.tdiv (remaining_width - counts.2) counts.1 else 0

/-- The width vector handed to a table child (table_wrapper.rs lines
662-669): each zero column receives `default_cell_width`, every other column
keeps its declared width. -/
def distribute_col_widths (col_widths : List Int) (remaining_width : Int) : List Int :=
  col_widths.map (fun w => if w = 0 then default_cell_width col_widths remaining_width else w)

/-! ## TableRowFlow::assign_widths -/

/-- A table-cell child's base position fields written by the row's
`assign_widths`. -/
structure RowCell where
  x : Int
  width : Int
deriving DecidableEq

/-- The cell-placement loop of `TableRowFlow::assign_widths` (table_row.rs
lines 509-531): the `i`-th child gets `origin.x = x_offset` and
`size.width = col_widths[i]`, with `x_offset` advanced by `col_widths[i]`.
The source indexes `col_widths[i]` without a bounds check; an index past the
end of `col_widths` is a panic, modelled as `none`. -/
def TableRowFlow.assign_widths_cells (cells : List RowCell) (col_widths : List Int)
    (x_offset : Int) : Option (List RowCell) :=
  match cells, col_widths with
  | [], _ => some []
  | _ :: _, [] => none
  | c :: cs, w :: ws =>
      match TableRowFlow.assign_widths_cells cs ws (x_offset + w) with
      | none => none
      | some rest => some ({ c with x := x_offset, width := w } :: rest)

/-! ## assign_heights: margin collapsing and the block height pass

The vertical pass reads, for each child, only the child's float flag, its
box's top/bottom margins and its `base.position.size.height`, and writes the
child's `base.position.origin.y`.  Children are therefore modelled by those
fields; their own (already completed, post-order) height passes are
reflected in the recorded margins and heights. -/

/-- The box fields of a child consulted by `collapse_margins`. -/
structure ChildBox where
  marginTop : Int
  marginBottom : Int
deriving DecidableEq

/-- A child flow as seen by its parent's height pass. -/
structure ChildFlow where
  is_float : Bool
  box_ : Option ChildBox
  y : Int
  height : Int
deriving DecidableEq

/-- The per-child mutable state threaded through `compute_margin_collapse`:
`first_in_flow`, the parent's running `margin_top` and `top_offset`, and the
`collapsing` / `collapsible` pair. -/
structure CMState where
  firstInFlow : Bool
  marginTop : Int
  topOffset : Int
  collapsing : Int
  collapsible : Int
deriving DecidableEq

/-- `Flow::collapse_margins` as implemented by `BlockFlow` (block.rs lines
899-933; `TableRowFlow` and `TableWrapperFlow` carry the same body).  Floats
only reset `collapsing`; a boxless child only clears `first_in_flow`; a boxed
child first applies the first-in-flow parent/child slide, then reports
`collapsing = min(own margin-top, running collapsible)` and carries its own
margin-bottom forward. -/
def ChildFlow.collapse_margins (c : ChildFlow) (top_margin_collapsible : Bool)
    (s : CMState) : CMState :=
  if c.is_float then { s with collapsing := 0 }
  else
    match c.box_ with
    | none => { s with firstInFlow := false }
    | some b =>
        let s1 :=
          if s.firstInFlow = true ∧ top_margin_collapsible = true ∧ s.marginTop < b.marginTop then
            { s with topOffset := s.topOffset + (b.marginTop - s.marginTop),
                     marginTop := b.marginTop }
          else s
        { s1 with collapsing := min b.marginTop s1.collapsible,
                  collapsible := b.marginBottom,
                  firstInFlow := false }

/-- The child loop of `BlockFlow::compute_margin_collapse` (block.rs lines
299-311): collapse against each child, then place it at
`cur_y - collapsing` and advance `cur_y` by its height. -/
def collapseLoop (top_margin_collapsible : Bool) (children : List ChildFlow)
    (cur_y : Int) (s : CMState) : List ChildFlow × Int × CMState :=
  match children with
  | [] => ([], cur_y, s)
  | c :: rest =>
      let s1 := c.collapse_margins top_margin_collapsible s
      let y := cur_y - s1.collapsing
      let r := collapseLoop top_margin_collapsible rest (y + c.height) s1
      ({ c with y := y } :: r.1, r.2.1, r.2.2)

/-- The outputs of `compute_margin_collapse`: the placed children and the
final values of `cur_y`, `top_offset`, `margin_top` and `margin_bottom`. -/
structure CollapseResult where
  children : List ChildFlow
  curY : Int
  topOffset : Int
  marginTop : Int
  marginBottom : Int
deriving DecidableEq

/-- `BlockFlow::compute_margin_collapse` (block.rs lines 285-325): seed
`collapsible` with the parent's top margin when collapsible, run the child
loop, then collapse the parent's bottom margin with the last carried
`collapsible`. -/
def compute_margin_collapse (children : List ChildFlow)
    (cur_y top_offset margin_top margin_bottom : Int)
    (top_margin_collapsible bottom_margin_collapsible : Bool) : CollapseResult :=
  let s0 : CMState :=
    { firstInFlow := true, marginTop := margin_top, topOffset := top_offset,
      collapsing := 0,
      collapsible := if top_margin_collapsible then margin_top else 0 }
  let r := collapseLoop top_margin_collapsible children cur_y s0
  let bottom :=
    if bottom_margin_collapsible then
      ((if margin_bottom < r.2.2.collapsible then r.2.2.collapsible else margin_bottom),
       r.2.2.collapsible)
    else (margin_bottom, 0)
  { children := r.1, curY := r.2.1 - bottom.2,
    topOffset := r.2.2.topOffset, marginTop := r.2.2.marginTop, marginBottom := bottom.1 }

/-- The box of the flow running the height pass.  `heightStyle` is
`style.Box.height`; `fixedTop` is the resolved top offset a fixed box takes
from the screen (modelled from the spec, see
`get_y_coord_and_new_height_if_fixed`). -/
structure BoxData where
  marginTop : Int
  marginBottom : Int
  borderTop : Int
  borderBottom : Int
  paddingTop : Int
  paddingBottom : Int
  y : Int
  height : Int
  heightStyle : LengthOrPercentageOrAuto
  fixedTop : Int
deriving DecidableEq

/-- A `BlockFlow` as seen by `assign_height_block_base`: its optional box,
the root/fixed flags, its children, and `base.position.size.height`. -/
structure BlockFlowH where
  box_ : Option BoxData
  is_root : Bool
  is_fixed : Bool
  children : List ChildFlow
  baseHeight : Int
deriving DecidableEq

/-- `BlockFlow::initialize_offsets` (block.rs lines 243-259), returning
`(clearance, top_offset, bottom_offset)`.  The modelled tree has no floats
and `box.clear() = None`, so clearance is 0; `Box::noncontent_top` and
`noncontent_bottom` are modelled from the spec as border + padding of the
respective side (box code is not under `src/`). -/
def initialize_offsets (f : BlockFlowH) : Int × Int × Int :=
  match f.box_ with
  | none => (0, 0, 0)
  | some b =>
      let clearance : Int := 0
      (clearance, clearance + b.borderTop + b.paddingTop, b.borderBottom + b.paddingBottom)

/-- `BlockFlow::precompute_margin` (block.rs lines 263-281): seed the margins
from the box and decide top/bottom collapsibility (non-root, zero border and
padding on that side). -/
def precompute_margin (f : BlockFlowH) : Int × Int × Bool × Bool :=
  match f.box_ with
  | none => (0, 0, false, false)
  | some b =>
      (b.marginTop, b.marginBottom,
       !f.is_root && (b.borderTop == 0) && (b.paddingTop == 0),
       !f.is_root && (b.borderBottom == 0) && (b.paddingBottom == 0))

/-- Modelled from the spec: `Box::get_y_coord_and_new_height_if_fixed`
(box code is not under `src/`) is the identity `(y_candidate, height)` for
non-fixed flows; for fixed flows it consults the box's top offset against
the screen size, modelled by the resolved offset `fixedTop` carried on the
box, leaving the height unchanged. -/
def get_y_coord_and_new_height_if_fixed (fixedTop _screen_height height y_candidate : Int)
    (is_fixed : Bool) : Int × Int :=
  if is_fixed then (fixedTop, height) else (y_candidate, height)

/-- `BlockFlow::compute_height_position` (block.rs lines 356-405): write the
collapsed margins into the box, position the box, overwrite every child's y
with `box.y + top_offset` when the flow is fixed, and set the box and base
heights. -/
def compute_height_position (box_ : Option BoxData) (is_root is_fixed : Bool)
    (children : List ChildFlow) (height screen_height border_and_padding
     margin_top margin_bottom clearance top_offset : Int) : BlockFlowH :=
  match box_ with
  | none =>
      -- no box: the loop body is skipped and noncontent_height stays 0.
      BlockFlowH.mk none is_root is_fixed children
        (if is_fixed then height else height + 0)
  | some b =>
      let yh := get_y_coord_and_new_height_if_fixed b.fixedTop screen_height height
        (clearance + margin_top) is_fixed
      let children' :=
        if is_fixed then children.map (fun c => { c with y := yh.1 + top_offset })
        else children
      let b2 : BoxData :=
        { marginTop := margin_top, marginBottom := margin_bottom,
          borderTop := b.borderTop, borderBottom := b.borderBottom,
          paddingTop := b.paddingTop, paddingBottom := b.paddingBottom,
          y := yh.1,
          height := if is_fixed then yh.2 else yh.2 + border_and_padding,
          heightStyle := b.heightStyle, fixedTop := b.fixedTop }
      let noncontent_height := border_and_padding + clearance + margin_top + margin_bottom
      BlockFlowH.mk (some b2) is_root is_fixed children'
        (if is_fixed then yh.2 else yh.2 + noncontent_height)

/-- The margin-collapse stage of `assign_height_block_base`: offsets,
precomputed margins, and the collapse over the children (block.rs lines
429-444). -/
def collapseStage (f : BlockFlowH) : CollapseResult :=
  let offs := initialize_offsets f
  let pre := precompute_margin f
  compute_margin_collapse f.children offs.2.1 offs.2.1 pre.1 pre.2.1 pre.2.2.1 pre.2.2.2

/-- `BlockFlow::assign_height_block_base` (block.rs lines 427-488) for the
non-inorder traversal (no floats in the modelled tree, so the float context
threading and `set_floats_out` carry no information). -/
def assign_height_block_base (f : BlockFlowH) (screen_height : Int) : BlockFlowH :=
  let offs := initialize_offsets f
  let col := collapseStage f
  let height0 := if f.is_root then max screen_height col.curY else col.curY - col.topOffset
  let height1 :=
    match f.box_ with
    | none => height0
    | some b =>
        match MaybeAuto.from_style b.heightStyle height0 with
        | .Auto => height0
        | .Specified value => value
  let border_and_padding :=
    match f.box_ with
    | none => 0
    | some b => b.paddingTop + b.paddingBottom + b.borderTop + b.borderBottom
  compute_height_position f.box_ f.is_root f.is_fixed col.children height1 screen_height
    border_and_padding col.marginTop col.marginBottom offs.1 col.topOffset

/-! ## TableRowFlow::assign_height_table_base -/

/-- A table-cell box as seen by the row's height pass (position y and
height). -/
structure CellBox where
  y : Int
  height : Int
deriving DecidableEq

/-- A cell child of a table row in the height pass. -/
structure CellFlow where
  box_ : Option CellBox
  y : Int
  height : Int
deriving DecidableEq

/-- The row's own box in the height pass. -/
structure RowBox where
  y : Int
  height : Int
  heightStyle : LengthOrPercentageOrAuto
  fixedTop : Int
deriving DecidableEq

/-- A `TableRowFlow` as seen by `assign_height_table_base`. -/
structure TableRowFlowH where
  box_ : Option RowBox
  is_fixed : Bool
  children : List CellFlow
  baseHeight : Int
deriving DecidableEq

/-- `TableRowFlow::assign_height_table_base` (table_row.rs lines 142-249)
for the non-inorder traversal: place every cell at `cur_y = 0` and take
`max_y` as the running maximum of the cells' heights; resolve the row's
height property against `max_y`; position the row box (fixed flows overwrite
the cells' y); then stretch every cell box to the row height and set every
cell's base height to `max_y`.  `noncontent_height` is initialized to 0 and
never written, as in the source. -/
def assign_height_table_base (f : TableRowFlowH) (screen_height : Int) : TableRowFlowH :=
  let cur_y : Int := 0
  let top_offset : Int := 0
  let noncontent_height : Int := 0
  let children1 := f.children.map (fun c => { c with y := cur_y })
  let max_y := f.children.foldl (fun m c => max m c.height) 0
  let height0 := max_y
  let height1 :=
    match f.box_ with
    | none => height0
    | some b =>
        match MaybeAuto.from_style b.heightStyle height0 with
        | .Auto => height0
        | .Specified value => value
  match f.box_ with
  | none =>
      let baseH := if f.is_fixed then height1 else height1 + noncontent_height
      let children2 := children1.map (fun c =>
        { c with box_ := c.box_.map (fun b => { b with height := height1 }),
                 height := max_y })
      TableRowFlowH.mk none f.is_fixed children2 baseH
  | some b =>
      let yh := get_y_coord_and_new_height_if_fixed b.fixedTop screen_height height1 0 f.is_fixed
      let children1' :=
        if f.is_fixed then children1.map (fun c => { c with y := yh.1 + top_offset })
        else children1
      let b2 : RowBox :=
        { y := yh.1,
          height := if f.is_fixed then yh.2 else yh.2 + noncontent_height,
          heightStyle := b.heightStyle, fixedTop := b.fixedTop }
      let baseH := if f.is_fixed then yh.2 else yh.2 + noncontent_height
      let children2 := children1'.map (fun c =>
        { c with box_ := c.box_.map (fun cb => { cb with height := yh.2 }),
                 height := max_y })
      TableRowFlowH.mk (some b2) f.is_fixed children2 baseH

/-! ## Views and fixtures used by the verification -/

/-- The fields of a child that the parent's height pass reads (everything
except the child's `y`, which the pass overwrites). -/
def ChildFlow.strip (c : ChildFlow) : Bool × Option ChildBox × Int :=
  (c.is_float, c.box_, c.height)

/-- The fields of the flow's own box that `assign_height_block_base` reads
(everything except the box's `y` and `height`, which the pass overwrites). -/
def boxRead (b : BoxData) :
    Int × Int × Int × Int × Int × Int × LengthOrPercentageOrAuto × Int :=
  (b.marginTop, b.marginBottom, b.borderTop, b.borderBottom, b.paddingTop, b.paddingBottom,
   b.heightStyle, b.fixedTop)

/-- The top margin of the first in-flow (non-float) boxed child: the margin
against which the first-in-flow parent/child slide of `collapse_margins`
compares the parent's top margin.  `none` when the first non-float child has
no box (it then only clears `first_in_flow`) or when there is no non-float
child. -/
def firstInFlowMarginTop : List ChildFlow → Option Int
  | [] => none
  | c :: rest =>
      if c.is_float then firstInFlowMarginTop rest
      else
        match c.box_ with
        | none => none
        | some b => some b.marginTop

/-- Scenario S4's style: `width:100, margin-left:50, margin-right:50`, no
`max-width`/`min-width` clamp. -/
def s4_style : BoxStyle :=
  { width := .lpaLength 100, margin_left := .lpaLength 50, margin_right := .lpaLength 50,
    max_width := .lpnNone, min_width := .lpLength 0 }

/-- A style with `max-width:50 < min-width:80` and auto width, exercising the
clamp order. -/
def clamp_style : BoxStyle :=
  { width := .lpaAuto, margin_left := .lpaLength 0, margin_right := .lpaLength 0,
    max_width := .lpnLength 50, min_width := .lpLength 80 }

/-- Scenario S6's style: everything auto, so a floated block takes the
shrink-to-fit width. -/
def s6_style : BoxStyle :=
  { width := .lpaAuto, margin_left := .lpaAuto, margin_right := .lpaAuto,
    max_width := .lpnNone, min_width := .lpLength 0 }

/-- A block whose top margin (10) is smaller than its first child's top
margin (40): the first-in-flow slide of CSS 2.1 §8.3.1 fires during its
height pass. -/
def slide_flow : BlockFlowH :=
  { box_ := some { marginTop := 10, marginBottom := 0, borderTop := 0, borderBottom := 0,
                   paddingTop := 0, paddingBottom := 0, y := 0, height := 0,
                   heightStyle := .lpaAuto, fixedTop := 0 },
    is_root := false, is_fixed := false,
    children := [{ is_float := false, box_ := some ⟨40, 0⟩, y := 0, height := 40 }],
    baseHeight := 0 }

/-- A block whose top margin (50) dominates its first child's (40): no
first-in-flow slide occurs during its height pass. -/
def no_slide_flow : BlockFlowH :=
  { box_ := some { marginTop := 50, marginBottom := 0, borderTop := 0, borderBottom := 0,
                   paddingTop := 0, paddingBottom := 0, y := 0, height := 0,
                   heightStyle := .lpaAuto, fixedTop := 0 },
    is_root := false, is_fixed := false,
    children := [{ is_float := false, box_ := some ⟨40, 0⟩, y := 0, height := 40 }],
    baseHeight := 0 }

/-- A fixed-position block with two margin-free in-flow children of heights
10 and 20. -/
def fixed_flow : BlockFlowH :=
  { box_ := some { marginTop := 0, marginBottom := 0, borderTop := 0, borderBottom := 0,
                   paddingTop := 0, paddingBottom := 0, y := 0, height := 0,
                   heightStyle := .lpaAuto, fixedTop := 0 },
    is_root := false, is_fixed := true,
    children := [{ is_float := false, box_ := some ⟨0, 0⟩, y := 0, height := 10 },
                 { is_float := false, box_ := some ⟨0, 0⟩, y := 0, height := 20 }],
    baseHeight := 0 }

/-- A non-fixed table row with auto height and two cells of heights 35 and
50. -/
def sample_row : TableRowFlowH :=
  { box_ := some { y := 0, height := 0, heightStyle := .lpaAuto, fixedTop := 0 },
    is_fixed := false,
    children := [{ box_ := some ⟨0, 35⟩, y := 5, height := 35 },
                 { box_ := some ⟨0, 50⟩, y := 7, height := 50 }],
    baseHeight := 0 }

/-! ## Lemmas about the horizontal solver -/

/-- When the computed width is `Specified w`, every branch of
`compute_horiz` returns exactly `w` as the used width. -/
theorem compute_horiz_fst_of_specified (l r : MaybeAuto) (a w : Int) :
    (compute_horiz (.Specified w) l r a).1 = w := by
  rcases l with _ | ml <;> rcases r with _ | mr <;>
    simp only [compute_horiz, MaybeAuto.specified_or_zero, MaybeAuto.specified_or_default] <;>
    split <;> simp [solve_horiz]

/-- With both margins Specified, the solver satisfies the conservation
invariant `left + width + right = available` stated in the source. -/
theorem compute_horiz_conserves (w : MaybeAuto) (l r a : Int) :
    (compute_horiz w (.Specified l) (.Specified r) a).2.1
      + (compute_horiz w (.Specified l) (.Specified r) a).1
      + (compute_horiz w (.Specified l) (.Specified r) a).2.2 = a := by
  rcases w with _ | wv
  · simp only [compute_horiz, solve_horiz]
    omega
  · simp only [compute_horiz, MaybeAuto.specified_or_zero, MaybeAuto.specified_or_default]
    split <;> (simp only [solve_horiz]; omega)

/-- C1: for every non-floated block whose computed width and both margins
resolve to Specified values, the solved `left_margin + width + right_margin`
equals the available width after `assign_widths`; in particular for S4
(`width:100, margin-left:50, margin-right:50, available:300`) the right
margin is recomputed to 150. -/
theorem width_conservation_C1 :
    (∀ (style : BoxStyle) (remaining available w l r : Int),
        MaybeAuto.from_style style.width remaining = .Specified w →
        MaybeAuto.from_style style.margin_left remaining = .Specified l →
        MaybeAuto.from_style style.margin_right remaining = .Specified r →
        (compute_block_margins style remaining available).2.1
          + (compute_block_margins style remaining available).1
          + (compute_block_margins style remaining available).2.2 = available)
    ∧ compute_block_margins s4_style 300 300 = (100, 50, 150) := by
  constructor
  · intro style remaining available w l r hw hl hr
    simp only [compute_block_margins, hw, hl, hr]
    cases hmax : specified_or_none style.max_width remaining <;>
      simp only [hmax] <;>
      split_ifs <;> apply compute_horiz_conserves
  · decide

/-- Witness for C1 at the S4 input. -/
theorem width_conservation_C1_witness :
    (compute_block_margins s4_style 300 300).2.1
      + (compute_block_margins s4_style 300 300).1
      + (compute_block_margins s4_style 300 300).2.2 = 300 :=
  width_conservation_C1.1 s4_style 300 300 100 50 50 (by decide) (by decide) (by decide)

/-- C3: if `max-width` resolves to a value smaller than the resolved
`min-width`, the used width after `assign_widths` is the resolved
`min-width`, for block flows and table wrapper flows alike: the `max-width`
rerun comes first and the `min-width` rerun afterwards. -/
theorem clamp_order_C3 :
    ∀ (style : BoxStyle) (remaining available m mn : Int),
      specified_or_none style.max_width remaining = some m →
      specified style.min_width remaining = mn →
      m < mn →
      (compute_block_margins style remaining available).1 = mn
      ∧ (compute_table_margins style remaining available).1 = mn := by
  intro style remaining available m mn hmax hmin hlt
  constructor
  · simp only [compute_block_margins, hmax, hmin]
    split_ifs with h1 h2 h3 <;>
      first
        | apply compute_horiz_fst_of_specified
        | (exfalso
           simp only [compute_horiz_fst_of_specified] at *
           omega)
  · simp only [compute_table_margins, hmax, hmin]
    split_ifs with h1 h2 h3 <;>
      first
        | apply compute_horiz_fst_of_specified
        | (exfalso
           simp only [compute_horiz_fst_of_specified] at *
           omega)

/-- Witness for C3: `max-width:50 < min-width:80` with auto width in a
300-wide containing block yields used width 80. -/
theorem clamp_order_C3_witness :
    (compute_block_margins clamp_style 300 300).1 = 80
    ∧ (compute_table_margins clamp_style 300 300).1 = 80 :=
  clamp_order_C3 clamp_style 300 300 50 80 (by decide) (by decide) (by decide)

/-- C6: a floated block with Auto computed width gets the shrink-to-fit
width `min(pref_width, max(min_width, remaining_width))` and Auto margins
resolve to 0; in particular S6 (`min=50, pref=120, remaining=80`) yields
used width 80. -/
theorem float_shrink_to_fit_C6 :
    (∀ (style : BoxStyle) (min_width pref_width remaining : Int),
        style.width = .lpaAuto →
        (compute_float_margins style min_width pref_width remaining).1
          = min pref_width (max min_width remaining)
        ∧ (style.margin_left = .lpaAuto →
            (compute_float_margins style min_width pref_width remaining).2.1 = 0)
        ∧ (style.margin_right = .lpaAuto →
            (compute_float_margins style min_width pref_width remaining).2.2 = 0))
    ∧ (compute_float_margins s6_style 50 120 80).1 = 80 := by
  constructor
  · intro style mw pw rem hw
    refine ⟨?_, fun hl => ?_, fun hr => ?_⟩
    · simp [compute_float_margins, hw, MaybeAuto.from_style, MaybeAuto.specified_or_default]
    · simp [compute_float_margins, hl, MaybeAuto.from_style, MaybeAuto.specified_or_default,
        MaybeAuto.specified_or_zero]
    · simp [compute_float_margins, hr, MaybeAuto.from_style, MaybeAuto.specified_or_default,
        MaybeAuto.specified_or_zero]
  · decide

/-- Witness for C6 at the S6 input. -/
theorem float_shrink_to_fit_C6_witness :
    (compute_float_margins s6_style 50 120 80).1 = min 120 (max 50 80)
    ∧ (s6_style.margin_left = .lpaAuto → (compute_float_margins s6_style 50 120 80).2.1 = 0)
    ∧ (s6_style.margin_right = .lpaAuto → (compute_float_margins s6_style 50 120 80).2.2 = 0) :=
  float_shrink_to_fit_C6.1 s6_style 50 120 80 rfl

/-! ## Column distribution (C5) -/

/-- The counting fold of `countZeroAndFixedSum`, with the accumulator made
explicit: it adds the number of zero entries to the first component and the
sum of the non-zero entries to the second. -/
theorem countZeroAndFixedSum_fold (ws : List Int) (a b : Int) :
    ws.foldl
        (fun (acc : Int × Int) w => if w = 0 then (acc.1 + 1, acc.2) else (acc.1, acc.2 + w))
        (a, b)
      = (a + ((ws.filter (fun v => v = 0)).length : Int),
         b + (ws.filter (fun v => ¬ v = 0)).sum) := by
  induction ws generalizing a b with
  | nil => simp
  | cons w ws ih =>
      by_cases hw : w = 0 <;>
        simp [hw, List.filter_cons, ih] <;> omega

/-- `countZeroAndFixedSum` counts the flex (zero) columns and sums the fixed
(non-zero) ones. -/
theorem countZeroAndFixedSum_eq (ws : List Int) :
    countZeroAndFixedSum ws
      = (((ws.filter (fun v => v = 0)).length : Int),
         (ws.filter (fun v => ¬ v = 0)).sum) := by
  simpa using countZeroAndFixedSum_fold ws 0 0

/-- C5: in `TableWrapperFlow::assign_widths`, with `S` the sum of the
non-zero entries of `col_widths` and `k` the number of zero entries, every
zero (flex) column is assigned `(remaining_width - S) / k` (truncating
integer division) when `k > 0`, the division is guarded and yields 0 when
`k = 0`, and non-zero columns keep their declared widths; concretely a
400-wide wrapper with declared widths `[100, 0, 0]` hands `[100, 150, 150]`
to the inner table. -/
theorem table_column_distribution_C5 :
    (∀ (ws : List Int) (remaining : Int),
        distribute_col_widths ws remaining
          = ws.map (fun w =>
              if w = 0 then
                (if (ws.filter (fun v => v = 0)).length ≠ 0 then
                  Int.tdiv (remaining - (ws.filter (fun v => ¬ v = 0)).sum)
                    ((ws.filter (fun v => v = 0)).length : Int)
                 else 0)
              else w))
    ∧ distribute_col_widths [100, 0, 0] 400 = [100, 150, 150] := by
  constructor
  · intro ws remaining
    unfold distribute_col_widths default_cell_width
    rw [countZeroAndFixedSum_eq]
    rcases h : (ws.filter (fun v => v = 0)).length with _ | n <;> simp [h]
  · decide

/-! ## TableRowFlow::assign_widths precondition (C10) -/

/-- C10: the cell-placement loop of `TableRowFlow::assign_widths` panics
(modelled as `none`) exactly when `col_widths` has fewer entries than the
row has children: `col_widths[i]` is read for every child without a bounds
check. -/
theorem row_col_widths_precondition_C10 :
    ∀ (cells : List RowCell) (col_widths : List Int) (x_offset : Int),
      TableRowFlow.assign_widths_cells cells col_widths x_offset = none
        ↔ col_widths.length < cells.length := by
  intro cells
  induction cells with
  | nil => intro ws x; simp [TableRowFlow.assign_widths_cells]
  | cons c cs ih =>
      intro ws x
      rcases ws with _ | ⟨w, ws⟩
      · simp [TableRowFlow.assign_widths_cells]
      · rw [TableRowFlow.assign_widths_cells]
        rcases hrec : TableRowFlow.assign_widths_cells cs ws (x + w) with _ | rest
        · have hlt := (ih ws (x + w)).mp hrec
          constructor
          · intro _
            simp only [List.length_cons]
            omega
          · intro _
            rfl
        · have hnot : ¬ ws.length < cs.length := by
            intro hl
            rw [← ih ws (x + w), hrec] at hl
            exact Option.noConfusion hl
          constructor
          · intro hcontra
            exact Option.noConfusion hcontra
          · intro hl
            exfalso
            simp only [List.length_cons] at hl
            omega

/-! ## Min/pref monotonicity (C4) -/

/-- The child fold of `BlockFlow::bubble_widths` (and of the wrapper's
`other` children) preserves `min ≤ pref` of the accumulator when every child
satisfies it. -/
theorem bubble_fold_le (children : List ChildWidths)
    (h : ∀ c ∈ children, c.min_width ≤ c.pref_width) :
    ∀ (a b : Int) (n : Nat), a ≤ b →
      (children.foldl blockBubbleStep (a, b, n)).1
        ≤ (children.foldl blockBubbleStep (a, b, n)).2.1 := by
  induction children with
  | nil => intro a b n hab; simpa using hab
  | cons c cs ih =>
      intro a b n hab
      have hc : c.min_width ≤ c.pref_width := h c (List.mem_cons_self c cs)
      have hcs : ∀ x ∈ cs, x.min_width ≤ x.pref_width :=
        fun x hx => h x (List.mem_cons_of_mem c hx)
      simpa [blockBubbleStep] using
        ih hcs (max a c.min_width) (max b c.pref_width) (n + c.num_floats)
          (max_le_max hab hc)

/-- The child fold of `TableWrapperFlow::bubble_widths` preserves
`min ≤ pref` of the accumulator when every `other` child satisfies it
(colgroup and table children only touch the column-width component). -/
theorem wrapper_fold_le (children : List WrapperChild) (is_fixed_layout : Bool)
    (h : ∀ c ∈ children, ∀ cw, c = .other cw → cw.min_width ≤ cw.pref_width) :
    ∀ (ws : List Int) (a b : Int), a ≤ b →
      (children.foldl (wrapperBubbleStep is_fixed_layout) (ws, a, b)).2.1
        ≤ (children.foldl (wrapperBubbleStep is_fixed_layout) (ws, a, b)).2.2 := by
  induction children with
  | nil => intro ws a b hab; simpa using hab
  | cons c cs ih =>
      intro ws a b hab
      have hcs : ∀ x ∈ cs, ∀ cw, x = .other cw → cw.min_width ≤ cw.pref_width :=
        fun x hx => h x (List.mem_cons_of_mem c hx)
      cases c with
      | colgroup mws =>
          simpa [wrapperBubbleStep] using ih hcs (ws ++ mws) a b hab
      | table tws n =>
          simpa [wrapperBubbleStep] using
            ih hcs ((if is_fixed_layout then mergeFixedColWidths ws tws else ws)
              ++ List.replicate
                (n - (if is_fixed_layout then mergeFixedColWidths ws tws else ws).length) 0)
              a b hab
      | other cw =>
          have hc : cw.min_width ≤ cw.pref_width :=
            h (.other cw) (List.mem_cons_self _ cs) cw rfl
          simpa [wrapperBubbleStep] using
            ih hcs ws (max a cw.min_width) (max b cw.pref_width) (max_le_max hab hc)

/-- C4: after `bubble_widths`, `base.min_width ≤ base.pref_width` holds for
`BlockFlow` (max over children plus the box's intrinsic widths),
`TableRowFlow` (whose pref is explicitly `max(min, sum of prefs)`) and
`TableWrapperFlow`, provided each child and the box's intrinsic widths
satisfy `min ≤ pref`. -/
theorem min_pref_monotone_C4 :
    (∀ (children : List ChildWidths) (is_float : Bool) (bw : Option (Int × Int)),
        (∀ c ∈ children, c.min_width ≤ c.pref_width) →
        (∀ p ∈ bw, p.1 ≤ p.2) →
        (BlockFlow.bubble_widths children is_float bw).1
          ≤ (BlockFlow.bubble_widths children is_float bw).2.1)
    ∧ (∀ (cells : List CellWidths) (is_float : Bool),
        (∀ c ∈ cells, c.min_width ≤ c.pref_width) →
        (TableRowFlow.bubble_widths cells is_float).2.2.2.1
          ≤ (TableRowFlow.bubble_widths cells is_float).2.2.2.2.1)
    ∧ (∀ (children : List WrapperChild) (is_fixed_layout : Bool) (bw : Option (Int × Int)),
        (∀ c ∈ children, ∀ cw, c = .other cw → cw.min_width ≤ cw.pref_width) →
        (∀ p ∈ bw, p.1 ≤ p.2) →
        (TableWrapperFlow.bubble_widths children is_fixed_layout bw).2.1
          ≤ (TableWrapperFlow.bubble_widths children is_fixed_layout bw).2.2) := by
  refine ⟨?_, ?_, ?_⟩
  · intro children is_float bw hch hbw
    have hfold := bubble_fold_le children hch 0 0 0 le_rfl
    unfold BlockFlow.bubble_widths
    rcases bw with _ | p
    · simpa using hfold
    · have hp : p.1 ≤ p.2 := hbw p rfl
      simp only
      omega
  · intro cells is_float _
    unfold TableRowFlow.bubble_widths
    exact le_max_left _ _
  · intro children is_fixed_layout bw hch hbw
    have hfold := wrapper_fold_le children is_fixed_layout hch [] 0 0 le_rfl
    unfold TableWrapperFlow.bubble_widths
    rcases bw with _ | p
    · simpa using hfold
    · have hp : p.1 ≤ p.2 := hbw p rfl
      simp only
      omega

/-- Witness for C4: one child `(min, pref) = (10, 25)`, a box with intrinsic
widths `(5, 7)`, a one-cell row, and a wrapper with a colgroup, a table and
an `other` child. -/
theorem min_pref_monotone_C4_witness :
    ((BlockFlow.bubble_widths [⟨10, 25, 0⟩] false (some (5, 7))).1
        ≤ (BlockFlow.bubble_widths [⟨10, 25, 0⟩] false (some (5, 7))).2.1)
    ∧ ((TableRowFlow.bubble_widths [⟨some (.lpaLength 30), 10, 25, 0⟩] false).2.2.2.1
        ≤ (TableRowFlow.bubble_widths [⟨some (.lpaLength 30), 10, 25, 0⟩] false).2.2.2.2.1)
    ∧ ((TableWrapperFlow.bubble_widths
          [.colgroup [100, 0], .table [40, 40] 3, .other ⟨10, 25, 0⟩] true (some (5, 7))).2.1
        ≤ (TableWrapperFlow.bubble_widths
          [.colgroup [100, 0], .table [40, 40] 3, .other ⟨10, 25, 0⟩] true (some (5, 7))).2.2) :=
  ⟨min_pref_monotone_C4.1 [⟨10, 25, 0⟩] false (some (5, 7)) (by decide)
      (by intro p hp; simp at hp; subst hp; decide),
   min_pref_monotone_C4.2.1 [⟨some (.lpaLength 30), 10, 25, 0⟩] false (by decide),
   min_pref_monotone_C4.2.2 [.colgroup [100, 0], .table [40, 40] 3, .other ⟨10, 25, 0⟩] true
      (some (5, 7))
      (by intro c hc cw hcw
          subst hcw
          simp at hc
          subst hc
          decide)
      (by intro p hp; simp at hp; subst hp; decide)⟩

/-! ## Table row heights (C8) -/

/-- The running maximum of the cells' heights bounds the accumulator and
every cell height. -/
theorem row_max_height_le (cs : List CellFlow) :
    ∀ a : Int, (a ≤ cs.foldl (fun m c => max m c.height) a)
      ∧ ∀ c ∈ cs, c.height ≤ cs.foldl (fun m c => max m c.height) a := by
  induction cs with
  | nil => intro a; exact ⟨le_rfl, by simp⟩
  | cons c cs ih =>
      intro a
      refine ⟨?_, ?_⟩
      · exact le_trans (le_max_left a c.height) (ih (max a c.height)).1
      · intro x hx
        rcases List.mem_cons.mp hx with h | h
        · subst h
          exact le_trans (le_max_right a x.height) (ih (max a x.height)).1
        · exact (ih (max a c.height)).2 x h

/-- The running maximum of the cells' heights is the accumulator or one of
the cells' heights. -/
theorem row_max_height_mem (cs : List CellFlow) :
    ∀ a : Int, cs.foldl (fun m c => max m c.height) a = a
      ∨ ∃ c ∈ cs, cs.foldl (fun m c => max m c.height) a = c.height := by
  induction cs with
  | nil => intro a; left; rfl
  | cons c cs ih =>
      intro a
      simp only [List.foldl_cons]
      rcases ih (max a c.height) with h | ⟨x, hx, he⟩
      · rcases le_total a c.height with hc | hc
        · right
          exact ⟨c, List.mem_cons_self _ _, by rw [h, max_eq_right hc]⟩
        · left
          rw [h, max_eq_left hc]
      · right
        exact ⟨x, List.mem_cons_of_mem _ hx, he⟩

/-- C8: for a non-floated, non-fixed table row whose computed height is
Auto (whether or not the row has its own box), every cell is placed at the
same `y = 0`, the row's height is the maximum of its cells' heights (the
cells' heights being non-negative), and every cell's box height is
stretched to that row height. -/
theorem row_height_C8 (f : TableRowFlowH) (sh : Int)
    (hfix : f.is_fixed = false)
    (hauto : ∀ b ∈ f.box_, b.heightStyle = .lpaAuto)
    (hne : f.children ≠ [])
    (hnn : ∀ c ∈ f.children, 0 ≤ c.height) :
    (∀ c ∈ (assign_height_table_base f sh).children, c.y = 0)
    ∧ (∃ c ∈ f.children, (assign_height_table_base f sh).baseHeight = c.height)
    ∧ (∀ c ∈ f.children, c.height ≤ (assign_height_table_base f sh).baseHeight)
    ∧ (∀ c ∈ (assign_height_table_base f sh).children, ∀ b ∈ c.box_,
        b.height = (assign_height_table_base f sh).baseHeight) := by
  have hbase : (assign_height_table_base f sh).baseHeight
      = f.children.foldl (fun m c => max m c.height) 0 := by
    rcases hb : f.box_ with _ | b
    · simp [assign_height_table_base, hfix, hb]
    · have hs := hauto b hb
      simp [assign_height_table_base, hfix, hb, hs, MaybeAuto.from_style,
        get_y_coord_and_new_height_if_fixed]
  have hch : (assign_height_table_base f sh).children
      = f.children.map (fun c =>
          { c with y := 0,
                   box_ := c.box_.map (fun b =>
                     { b with height := f.children.foldl (fun m c => max m c.height) 0 }),
                   height := f.children.foldl (fun m c => max m c.height) 0 }) := by
    rcases hb : f.box_ with _ | b
    · simp [assign_height_table_base, hfix, hb, List.map_map]
    · have hs := hauto b hb
      simp [assign_height_table_base, hfix, hb, hs, MaybeAuto.from_style,
        get_y_coord_and_new_height_if_fixed, List.map_map]
  refine ⟨?_, ?_, ?_, ?_⟩
  · intro c hc
    rw [hch] at hc
    rcases List.mem_map.mp hc with ⟨x, _, hx⟩
    rw [← hx]
  · rw [hbase]
    rcases row_max_height_mem f.children 0 with h | ⟨c, hc, he⟩
    · rcases List.exists_mem_of_ne_nil f.children hne with ⟨c0, hc0⟩
      refine ⟨c0, hc0, ?_⟩
      have h1 := (row_max_height_le f.children 0).2 c0 hc0
      have h2 := hnn c0 hc0
      omega
    · exact ⟨c, hc, he⟩
  · intro c hc
    rw [hbase]
    exact (row_max_height_le f.children 0).2 c hc
  · intro c hc b hb
    rw [hch] at hc
    rcases List.mem_map.mp hc with ⟨x, _, hx⟩
    rw [← hx] at hb
    rw [Option.mem_def] at hb
    rcases Option.map_eq_some'.mp hb with ⟨b0, hb0x, hb0⟩
    subst hb0
    simp [hbase]

/-- Witness for C8: a two-cell row with heights 35 and 50 gets row height
50, both cells at `y = 0`, both cell boxes stretched to 50. -/
theorem row_height_C8_witness :
    (∀ c ∈ (assign_height_table_base sample_row 600).children, c.y = 0)
    ∧ (∃ c ∈ sample_row.children, (assign_height_table_base sample_row 600).baseHeight = c.height)
    ∧ (∀ c ∈ sample_row.children,
        c.height ≤ (assign_height_table_base sample_row 600).baseHeight)
    ∧ (∀ c ∈ (assign_height_table_base sample_row 600).children, ∀ b ∈ c.box_,
        b.height = (assign_height_table_base sample_row 600).baseHeight) :=
  row_height_C8 sample_row 600 rfl
    (by intro b hb; simp [sample_row] at hb; subst hb; rfl)
    (by simp [sample_row])
    (by intro c hc; simp [sample_row] at hc; rcases hc with h | h <;> subst h <;> decide)

/-! ## Sibling margin collapse (C2) -/

/-- C2: for two adjacent in-flow non-floated boxed siblings, the second is
placed at `y2 = y1 + h1 - min(margin_top2, margin_bottom1)` — the collapsing
amount subtracted before placing a child is the minimum of the child's top
margin and the running collapsible bottom margin of its previous sibling —
so with the children's base heights including their own margins, the content
gap between the two blocks is `max(margin_top2, margin_bottom1)`, the
maximum and not the sum; in particular for S1 (`margin-bottom: 20`,
`margin-top: 30`, no borders or padding) the gap is 30. -/
theorem sibling_margin_collapse_C2 :
    (∀ (b1 b2 : ChildBox) (y1 y2 h1 h2 curY topOffset mt mb : Int) (tc bc : Bool),
        ∃ z1 z2,
          (compute_margin_collapse
              [⟨false, some b1, y1, h1⟩, ⟨false, some b2, y2, h2⟩]
              curY topOffset mt mb tc bc).children.map (fun c => c.y) = [z1, z2]
          ∧ z2 = z1 + h1 - min b2.marginTop b1.marginBottom
          ∧ (z2 + b2.marginTop) - (z1 + b1.marginTop + (h1 - b1.marginTop - b1.marginBottom))
              = max b2.marginTop b1.marginBottom)
    ∧ ((compute_margin_collapse
          [⟨false, some ⟨0, 20⟩, 0, 60⟩, ⟨false, some ⟨30, 0⟩, 0, 70⟩]
          0 0 0 0 false false).children.map (fun c => c.y) = [0, 40]
        ∧ (40 + 30) - (0 + 0 + (60 - 0 - 20)) = (30 : Int)) := by
  constructor
  · intro b1 b2 y1 y2 h1 h2 curY topOffset mt mb tc bc
    simp [compute_margin_collapse, collapseLoop, ChildFlow.collapse_margins]
    split
    · refine ⟨_, _, ⟨rfl, rfl⟩, by omega, by omega⟩
    · refine ⟨_, _, ⟨rfl, rfl⟩, by omega, by omega⟩
  · constructor
    · decide
    · decide

/-! ## Fixed flows overwrite children's `y` (C9) -/

/-- C9 (amended): for a fixed-position block flow with a box, at the end of
`assign_heights` every child's `y` is set to the single value
`box.position.origin.y + top_offset` (the post-collapse top offset), the
same for all children; the margin-collapse placement is overwritten, not
shifted. -/
theorem fixed_children_y_C9_amended (f : BlockFlowH) (sh : Int) (b : BoxData)
    (hfix : f.is_fixed = true) (hbox : f.box_ = some b) :
    ∃ b2, (assign_height_block_base f sh).box_ = some b2
      ∧ ∀ c ∈ (assign_height_block_base f sh).children,
          c.y = b2.y + (collapseStage f).topOffset := by
  unfold assign_height_block_base compute_height_position
  rw [hbox]
  simp only [hfix, get_y_coord_and_new_height_if_fixed, if_true]
  refine ⟨_, rfl, ?_⟩
  intro c hc
  simp only [List.mem_map] at hc
  rcases hc with ⟨x, _, hx⟩
  rw [← hx]

/-- Witness for C9 (amended) at the concrete fixed flow. -/
theorem fixed_children_y_C9_witness :
    ∃ b2, (assign_height_block_base fixed_flow 600).box_ = some b2
      ∧ ∀ c ∈ (assign_height_block_base fixed_flow 600).children,
          c.y = b2.y + (collapseStage fixed_flow).topOffset :=
  fixed_children_y_C9_amended fixed_flow 600 _ rfl rfl

/-- Counterexample to C9 as stated: in a fixed flow with two children of
heights 10 and 20 and no margins, borders or padding, margin collapsing
places the children at `y = 0` and `y = 10` and the top offset is 0, so a
shift of the collapsed placement by the top offset would give `[0, 10]`;
the code instead sets both children's `y` to 0. -/
theorem fixed_children_y_C9_counterexample :
    ((assign_height_block_base fixed_flow 600).children.map (fun c => c.y) = [0, 0])
    ∧ ((collapseStage fixed_flow).children.map (fun c => c.y) = [0, 10])
    ∧ (collapseStage fixed_flow).topOffset = 0
    ∧ ¬ ((assign_height_block_base fixed_flow 600).children.map (fun c => c.y)
          = (collapseStage fixed_flow).children.map
              (fun c => c.y + (collapseStage fixed_flow).topOffset)) := by
  decide

/-! ## Idempotence of the height pass (C7)

`assign_height_block_base` reads, from the flow, only the box's margins,
borders, paddings, height style and fixed offset, the root/fixed flags, and
each child's float flag, box and height; it writes the children's `y`, the
box's margins, `y` and height, and the base height.  The lemmas below make
that read/write split precise and give the two stability facts the
idempotence argument needs: without a first-in-flow slide the collapse
returns the incoming top margin and top offset unchanged, and the collapsed
bottom margin is a fixed point of the bottom-collapse step. -/

/-- `collapse_margins` leaves `marginTop` and `topOffset` unchanged and
keeps `firstInFlow` false once the first in-flow child has been seen. -/
theorem collapse_margins_noFirst (c : ChildFlow) (tc : Bool) (s : CMState)
    (h : s.firstInFlow = false) :
    (c.collapse_margins tc s).marginTop = s.marginTop
    ∧ (c.collapse_margins tc s).topOffset = s.topOffset
    ∧ (c.collapse_margins tc s).firstInFlow = false := by
  unfold ChildFlow.collapse_margins
  by_cases hf : c.is_float = true
  · simp [hf, h]
  · simp only [hf, if_false, Bool.not_eq_true] at *
    rcases hb : c.box_ with _ | b
    · simp [hf, h]
    · simp [hf, h]

/-- Once `firstInFlow` is false, the whole child loop leaves `marginTop` and
`topOffset` unchanged. -/
theorem collapseLoop_noFirst (tc : Bool) (cs : List ChildFlow) :
    ∀ (cy : Int) (s : CMState), s.firstInFlow = false →
      (collapseLoop tc cs cy s).2.2.marginTop = s.marginTop
      ∧ (collapseLoop tc cs cy s).2.2.topOffset = s.topOffset := by
  induction cs with
  | nil => intro cy s h; exact ⟨rfl, rfl⟩
  | cons c cs ih =>
      intro cy s h
      obtain ⟨h1, h2, h3⟩ := collapse_margins_noFirst c tc s h
      simp only [collapseLoop]
      obtain ⟨g1, g2⟩ := ih _ _ h3
      exact ⟨g1.trans h1, g2.trans h2⟩

/-- If the first in-flow boxed child's top margin does not exceed the
incoming `marginTop`, the whole child loop leaves `marginTop` and
`topOffset` unchanged (no first-in-flow slide fires). -/
theorem collapseLoop_noSlide (tc : Bool) (cs : List ChildFlow) :
    ∀ (cy : Int) (s : CMState), s.firstInFlow = true →
      (tc = true → ∀ m ∈ firstInFlowMarginTop cs, m ≤ s.marginTop) →
      (collapseLoop tc cs cy s).2.2.marginTop = s.marginTop
      ∧ (collapseLoop tc cs cy s).2.2.topOffset = s.topOffset := by
  induction cs with
  | nil => intro cy s hfirst hm; exact ⟨rfl, rfl⟩
  | cons c cs ih =>
      intro cy s hfirst hm
      simp only [collapseLoop]
      by_cases hf : c.is_float = true
      · have hs1 : c.collapse_margins tc s = { s with collapsing := 0 } := by
          unfold ChildFlow.collapse_margins
          simp [hf]
        rw [hs1]
        have hm' : tc = true → ∀ m ∈ firstInFlowMarginTop cs,
            m ≤ ({ s with collapsing := 0 } : CMState).marginTop := by
          intro htc m hmem
          exact hm htc m (by simpa [firstInFlowMarginTop, hf] using hmem)
        exact ih _ _ hfirst hm'
      · rcases hb : c.box_ with _ | b
        · have hs1 : c.collapse_margins tc s = { s with firstInFlow := false } := by
            unfold ChildFlow.collapse_margins
            simp [hf, hb]
          rw [hs1]
          exact collapseLoop_noFirst tc cs _ _ rfl
        · have hnoslide : ¬ (s.firstInFlow = true ∧ tc = true ∧ s.marginTop < b.marginTop) := by
            rintro ⟨-, htc, hlt⟩
            have := hm htc b.marginTop (by simp [firstInFlowMarginTop, hf, hb])
            omega
          have hs1 : c.collapse_margins tc s
              = { s with collapsing := min b.marginTop s.collapsible,
                         collapsible := b.marginBottom,
                         firstInFlow := false } := by
            unfold ChildFlow.collapse_margins
            simp [hf, hb, hnoslide]
          rw [hs1]
          exact collapseLoop_noFirst tc cs _ _ rfl

/-- The child loop only rewrites the children's `y`: their read fields are
untouched. -/
theorem collapseLoop_strip (tc : Bool) (cs : List ChildFlow) :
    ∀ (cy : Int) (s : CMState),
      (collapseLoop tc cs cy s).1.map ChildFlow.strip = cs.map ChildFlow.strip := by
  induction cs with
  | nil => intro cy s; rfl
  | cons c cs ih =>
      intro cy s
      simp [collapseLoop, ChildFlow.strip, ih]

/-- The child loop reads only the children's float flags, boxes and heights
(not their incoming `y`): it maps strip-equal child lists to equal
results. -/
theorem collapseLoop_congr (tc : Bool) (cs1 : List ChildFlow) :
    ∀ (cs2 : List ChildFlow) (cy : Int) (s : CMState),
      cs1.map ChildFlow.strip = cs2.map ChildFlow.strip →
      collapseLoop tc cs1 cy s = collapseLoop tc cs2 cy s := by
  induction cs1 with
  | nil =>
      intro cs2 cy s h
      cases cs2 with
      | nil => rfl
      | cons c cs => simp at h
  | cons c1 cs1 ih =>
      intro cs2 cy s h
      cases cs2 with
      | nil => simp at h
      | cons c2 cs2 =>
          simp only [List.map_cons, List.cons.injEq] at h
          obtain ⟨hhd, hrest⟩ := h
          rcases c1 with ⟨f1, b1, y1, h1⟩
          rcases c2 with ⟨f2, b2, y2, h2⟩
          simp only [ChildFlow.strip, Prod.mk.injEq] at hhd
          obtain ⟨ef, eb, eh⟩ := hhd
          subst ef; subst eb; subst eh
          simp only [collapseLoop]
          rw [show (⟨f1, b1, y1, h1⟩ : ChildFlow).collapse_margins tc s
              = (⟨f1, b1, y2, h1⟩ : ChildFlow).collapse_margins tc s from rfl,
            ih cs2 _ _ hrest]

/-- `firstInFlowMarginTop` reads only the children's float flags and
boxes. -/
theorem firstInFlowMarginTop_congr (cs1 : List ChildFlow) :
    ∀ (cs2 : List ChildFlow),
      cs1.map ChildFlow.strip = cs2.map ChildFlow.strip →
      firstInFlowMarginTop cs1 = firstInFlowMarginTop cs2 := by
  induction cs1 with
  | nil =>
      intro cs2 h
      cases cs2 with
      | nil => rfl
      | cons c cs => simp at h
  | cons c1 cs1 ih =>
      intro cs2 h
      cases cs2 with
      | nil => simp at h
      | cons c2 cs2 =>
          simp only [List.map_cons, List.cons.injEq] at h
          obtain ⟨hhd, hrest⟩ := h
          rcases c1 with ⟨f1, b1, y1, h1⟩
          rcases c2 with ⟨f2, b2, y2, h2⟩
          simp only [ChildFlow.strip, Prod.mk.injEq] at hhd
          obtain ⟨ef, eb, eh⟩ := hhd
          subst ef; subst eb; subst eh
          simp only [firstInFlowMarginTop]
          rw [ih cs2 hrest]

/-- `compute_margin_collapse` only rewrites the children's `y`. -/
theorem cmc_children_strip (cs : List ChildFlow) (cy t mt mb : Int) (tc bc : Bool) :
    (compute_margin_collapse cs cy t mt mb tc bc).children.map ChildFlow.strip
      = cs.map ChildFlow.strip := by
  unfold compute_margin_collapse
  exact collapseLoop_strip tc cs cy _

/-- `compute_margin_collapse` maps strip-equal child lists to equal
results. -/
theorem cmc_congr (cs1 cs2 : List ChildFlow) (cy t mt mb : Int) (tc bc : Bool)
    (h : cs1.map ChildFlow.strip = cs2.map ChildFlow.strip) :
    compute_margin_collapse cs1 cy t mt mb tc bc
      = compute_margin_collapse cs2 cy t mt mb tc bc := by
  simp only [compute_margin_collapse]
  rw [collapseLoop_congr tc cs1 cs2 cy _ h]

/-- Without a first-in-flow slide, `compute_margin_collapse` returns the
incoming top margin and top offset unchanged. -/
theorem cmc_noSlide (cs : List ChildFlow) (cy t mt mb : Int) (tc bc : Bool)
    (hm : tc = true → ∀ m ∈ firstInFlowMarginTop cs, m ≤ mt) :
    (compute_margin_collapse cs cy t mt mb tc bc).marginTop = mt
    ∧ (compute_margin_collapse cs cy t mt mb tc bc).topOffset = t := by
  unfold compute_margin_collapse
  exact collapseLoop_noSlide tc cs cy _ rfl hm

/-- The collapsed bottom margin is a fixed point of the bottom-collapse
step: re-running `compute_margin_collapse` with the collapsed bottom margin
as input changes nothing. -/
theorem cmc_stable_marginBottom (cs : List ChildFlow) (cy t mt mb : Int) (tc bc : Bool) :
    compute_margin_collapse cs cy t mt
        (compute_margin_collapse cs cy t mt mb tc bc).marginBottom tc bc
      = compute_margin_collapse cs cy t mt mb tc bc := by
  cases bc
  · rfl
  · simp only [compute_margin_collapse]
    simp only [show (true = true) = True from by simp, if_true, CollapseResult.mk.injEq]
    refine ⟨trivial, trivial, trivial, trivial, ?_⟩
    split_ifs <;> omega

/-- Overwriting every child's `y` with one value does not change the
children's read fields. -/
theorem strip_map_setY (v : Int) (cs : List ChildFlow) :
    (cs.map (fun c => { c with y := v })).map ChildFlow.strip
      = cs.map ChildFlow.strip := by
  induction cs with
  | nil => rfl
  | cons c cs ih => simp_all [ChildFlow.strip]

/-- The height pass only rewrites the children's `y`. -/
theorem pass_children_strip (bo : Option BoxData) (r x : Bool) (cs : List ChildFlow)
    (bh sh : Int) :
    (assign_height_block_base ⟨bo, r, x, cs, bh⟩ sh).children.map ChildFlow.strip
      = cs.map ChildFlow.strip := by
  rcases bo with _ | b
  · simp only [assign_height_block_base, collapseStage, initialize_offsets, precompute_margin,
      compute_height_position]
    exact cmc_children_strip _ _ _ _ _ _ _
  · simp only [assign_height_block_base, collapseStage, initialize_offsets, precompute_margin,
      compute_height_position]
    by_cases hx : x = true
    · simp only [hx, if_true]
      rw [strip_map_setY]
      exact cmc_children_strip _ _ _ _ _ _ _
    · simp only [hx, if_false]
      exact cmc_children_strip _ _ _ _ _ _ _

/-- The height pass keeps the root and fixed flags. -/
theorem pass_flags (bo : Option BoxData) (r x : Bool) (cs : List ChildFlow) (bh sh : Int) :
    (assign_height_block_base ⟨bo, r, x, cs, bh⟩ sh).is_root = r
    ∧ (assign_height_block_base ⟨bo, r, x, cs, bh⟩ sh).is_fixed = x := by
  cases bo <;> exact ⟨rfl, rfl⟩

/-- A boxless flow stays boxless through the height pass. -/
theorem pass_box_none (r x : Bool) (cs : List ChildFlow) (bh sh : Int) :
    (assign_height_block_base ⟨none, r, x, cs, bh⟩ sh).box_ = none := rfl

/-- The read fields of the box after the height pass: the collapsed margins
are written back, everything else the pass reads is untouched. -/
theorem pass_boxRead (b : BoxData) (r x : Bool) (cs : List ChildFlow) (bh sh : Int) :
    (assign_height_block_base ⟨some b, r, x, cs, bh⟩ sh).box_.map boxRead
      = some (boxRead { b with
          marginTop := (collapseStage ⟨some b, r, x, cs, bh⟩).marginTop,
          marginBottom := (collapseStage ⟨some b, r, x, cs, bh⟩).marginBottom }) := by
  rfl

/-- The height pass depends only on what it reads: the box's read fields,
the two flags, and the children's read fields. -/
theorem assign_height_congr (sh : Int) (f1 f2 : BlockFlowH)
    (hbox : f1.box_.map boxRead = f2.box_.map boxRead)
    (hroot : f1.is_root = f2.is_root) (hfix : f1.is_fixed = f2.is_fixed)
    (hcs : f1.children.map ChildFlow.strip = f2.children.map ChildFlow.strip) :
    assign_height_block_base f1 sh = assign_height_block_base f2 sh := by
  rcases f1 with ⟨bo1, r1, x1, cs1, bh1⟩
  rcases f2 with ⟨bo2, r2, x2, cs2, bh2⟩
  simp only at hroot hfix hcs hbox
  subst hroot
  subst hfix
  rcases bo1 with _ | b1 <;> rcases bo2 with _ | b2
  · simp only [assign_height_block_base, collapseStage, initialize_offsets, precompute_margin,
      compute_height_position]
    rw [cmc_congr cs1 cs2 _ _ _ _ _ _ hcs]
  · simp [boxRead] at hbox
  · simp [boxRead] at hbox
  · rcases b1 with ⟨mt1, mb1, bt1, bb1, pt1, pb1, y1, hh1, hs1, ft1⟩
    rcases b2 with ⟨mt2, mb2, bt2, bb2, pt2, pb2, y2, hh2, hs2, ft2⟩
    simp only [Option.map_some', Option.some.injEq, boxRead, Prod.mk.injEq] at hbox
    obtain ⟨e1, e2, e3, e4, e5, e6, e7, e8⟩ := hbox
    subst e1; subst e2; subst e3; subst e4; subst e5; subst e6; subst e7; subst e8
    simp only [assign_height_block_base, collapseStage, initialize_offsets, precompute_margin,
      compute_height_position]
    rw [cmc_congr cs1 cs2 _ _ _ _ _ _ hcs]

/-- Re-running the height pass with the collapsed bottom margin already
written into the box gives the same result as the original run: the bottom
margin feeds nothing but its own write-back. -/
theorem pass_stable_marginBottom (b : BoxData) (r x : Bool) (cs : List ChildFlow)
    (bh bh2 sh : Int) :
    assign_height_block_base
        ⟨some { b with marginBottom := (collapseStage ⟨some b, r, x, cs, bh⟩).marginBottom },
         r, x, cs, bh2⟩ sh
      = assign_height_block_base ⟨some b, r, x, cs, bh⟩ sh := by
  rcases b with ⟨mt, mb, bt, bb, pt, pb, y0, h0, hs, ft⟩
  simp only [assign_height_block_base, collapseStage, initialize_offsets, precompute_margin,
    compute_height_position]
  rw [cmc_stable_marginBottom]

/-- C7 (amended): the height pass is idempotent provided no first-in-flow
parent/child margin adjustment occurs, i.e. whenever the flow's top margin
is collapsible, the top margin of its first in-flow boxed child does not
exceed the flow's own top margin.  (The counterexample shows the claim
fails as stated when the first child's larger top margin slides the parent:
the first run collapses against the original top margin, the second against
the already-collapsed one, placing the child at a different `y`.) -/
theorem height_pass_idempotent_C7 (f : BlockFlowH) (sh : Int)
    (H : ∀ b ∈ f.box_,
        (!f.is_root && (b.borderTop == 0) && (b.paddingTop == 0)) = true →
        ∀ m ∈ firstInFlowMarginTop f.children, m ≤ b.marginTop) :
    assign_height_block_base (assign_height_block_base f sh) sh
      = assign_height_block_base f sh := by
  rcases f with ⟨bo, r, x, cs, bh⟩
  rcases bo with _ | b
  · -- boxless flow: the pass changes nothing it reads
    apply assign_height_congr
    · rw [pass_box_none]
    · exact (pass_flags none r x cs bh sh).1
    · exact (pass_flags none r x cs bh sh).2
    · exact pass_children_strip none r x cs bh sh
  · have hmem : b ∈ (BlockFlowH.mk (some b) r x cs bh).box_ := rfl
    have hMT : (collapseStage ⟨some b, r, x, cs, bh⟩).marginTop = b.marginTop := by
      rcases b with ⟨mt, mb, bt, bb, pt, pb, y0, h0, hs, ft⟩
      exact (cmc_noSlide cs _ _ mt mb _ _ (fun htc => H _ hmem htc)).1
    have h1 : assign_height_block_base (assign_height_block_base ⟨some b, r, x, cs, bh⟩ sh) sh
        = assign_height_block_base
            ⟨some { b with
                marginBottom := (collapseStage ⟨some b, r, x, cs, bh⟩).marginBottom },
             r, x, cs, bh⟩ sh := by
      apply assign_height_congr
      · rw [pass_boxRead]
        simp only [Option.map_some', Option.some.injEq, boxRead, hMT]
      · exact (pass_flags (some b) r x cs bh sh).1
      · exact (pass_flags (some b) r x cs bh sh).2
      · exact pass_children_strip (some b) r x cs bh sh
    rw [h1, pass_stable_marginBottom]

/-- Witness for C7 (amended): a block with top margin 50 over a first child
with top margin 40 (no slide); its height pass run twice equals one run. -/
theorem height_pass_idempotent_C7_witness :
    assign_height_block_base (assign_height_block_base no_slide_flow 600) 600
      = assign_height_block_base no_slide_flow 600 :=
  height_pass_idempotent_C7 no_slide_flow 600 (by
    intro b hb htc m hm
    simp [no_slide_flow] at hb
    subst hb
    simp [no_slide_flow, firstInFlowMarginTop] at hm
    subst hm
    decide)

/-- Counterexample to C7 as stated: a block with top margin 10 whose first
child has top margin 40 and base height 40.  The first height pass places
the child at `y = -10` and rewrites the box margin; the second places it at
`y = -40`: the pass is not idempotent. -/
theorem height_pass_idempotent_C7_counterexample :
    ((assign_height_block_base slide_flow 600).children.map (fun c => c.y) = [-10])
    ∧ ((assign_height_block_base (assign_height_block_base slide_flow 600) 600).children.map
        (fun c => c.y) = [-40])
    ∧ assign_height_block_base (assign_height_block_base slide_flow 600) 600
        ≠ assign_height_block_base slide_flow 600 := by
  decide

end Layout
